import Mathlib

/-!
Verification development for the PBAnalyzer report-analysis engine.

The definitions below are a shallow embedding of the Python sources:
  pb_analyzer/utils.py                            (count_hidden_true_in_dict,
                                                   _extract_tables_and_columns,
                                                   fetch_columns_and_tables,
                                                   get_classified_columns)
  pb_analyzer/base_analyzer.py                    (_insert_all_columns, _run_analysis)
  pb_analyzer/power_bi_shared_reports_analyzer.py (_process_report,
                                                   _send_conceptual_schema_request)
  pb_analyzer/power_bi_public_report_analyzer.py  (_process_report)

JSON documents are modelled as an inductive tree; Python dicts keep key order,
so objects are association lists in insertion order.  Machine-level details
that the engine never exercises (float numbers, non-string dict keys) are not
modelled.  Characters that the scanner treats specially are written with
Char.ofNat: 34 is the double quote, 39 the single quote, 92 the backslash.
-/

/-- A JSON-like document: the duck-typed nested dict/list values the analyzer
traverses.  Objects are association lists in Python dict insertion order. -/
inductive Json where
  | null
  | bool (b : Bool)
  | num (n : Int)
  | str (s : String)
  | arr (items : List Json)
  | obj (fields : List (String × Json))
deriving Repr

/-- Python `value is True`: the exact boolean True, not a truthy value. -/
def isPyTrue : Json → Bool
  | .bool true => true
  | _ => false

/-- Test from utils.py line 25: the value is a str and starts with
`DateTableTemplate` or `LocalDateTable` (isinstance check plus startswith). -/
def isTriggerName : Json → Bool
  | .str s => ("DateTableTemplate".data.isPrefixOf s.data) || ("LocalDateTable".data.isPrefixOf s.data)
  | _ => false

mutual
/-- Inner `recursive_count(data, skip_entity)` of `count_hidden_true_in_dict`
(utils.py lines 21-34), dict and list cases split over the three mutual
functions.  Scalars contribute nothing (Python recurses into every value;
non-containers fall through both isinstance checks and return 0). -/
def recursiveCount (skip : Bool) : Json → Nat
  | .null => 0
  | .bool _ => 0
  | .num _ => 0
  | .str _ => 0
  | .arr items => recursiveCountList skip items
  | .obj fields => recursiveCountFields skip fields
/-- List case of `recursive_count`: sum over the items, same flag for each. -/
def recursiveCountList (skip : Bool) : List Json → Nat
  | [] => 0
  | j :: rest => recursiveCount skip j + recursiveCountList skip rest
/-- Dict case of `recursive_count`: the loop over `data.items()`.  The local
variable `skip_entity` is updated in place when a triggering `Name` field is
met, so it carries over to the remaining keys of the same dict; the `Hidden`
test and the recursion into the value both see the updated flag. -/
def recursiveCountFields (skip : Bool) : List (String × Json) → Nat
  | [] => 0
  | (k, v) :: rest =>
    let skip2 := if k = "Name" && isTriggerName v then true else skip
    (if k = "Hidden" && isPyTrue v && !skip2 then 1 else 0)
      + recursiveCount skip2 v + recursiveCountFields skip2 rest
end

/-- `count_hidden_true_in_dict(response)` (utils.py line 36): the recursive
count started with `skip_entity = False`. -/
def countHiddenTrueInDict (response : Json) : Nat := recursiveCount false response

/-- Fields that flip `skip_entity`: a `Name` key with a triggering value. -/
def hasTriggerField (fields : List (String × Json)) : Bool :=
  fields.any (fun kv => kv.1 = "Name" && isTriggerName kv.2)

/-- Contribution of a single dict item when the flag is not flipped inside the
dict: the `Hidden` check plus the recursion into the value. -/
def fieldContrib (skip : Bool) (kv : String × Json) : Nat :=
  (if kv.1 = "Hidden" && isPyTrue kv.2 && !skip then 1 else 0) + recursiveCount skip kv.2

/-! ### Python string primitives used by the classifier -/

/-- Python substring test `pat in s`, on character lists. -/
def occursIn (pat : List Char) : List Char → Bool
  | [] => pat.isEmpty
  | c :: rest => pat.isPrefixOf (c :: rest) || occursIn pat rest

/-- Lowercase hex digit, as the json module emits in `\uXXXX` escapes. -/
def hexDigit (n : Nat) : Char := Char.ofNat (if n < 10 then 48 + n else 87 + n)

/-- One `\uXXXX` escape for a UTF-16 code unit. -/
def uEscape (n : Nat) : List Char :=
  [Char.ofNat 92, Char.ofNat 117,
   hexDigit (n / 4096 % 16), hexDigit (n / 256 % 16), hexDigit (n / 16 % 16), hexDigit (n % 16)]

/-- How `json.dumps` (default `ensure_ascii=True`) renders one character:
short escapes for quote, backslash and common controls, `\uXXXX` for the other
controls and for everything outside printable ASCII (surrogate pairs beyond
the BMP). -/
def escapeChar (c : Char) : List Char :=
  if c.toNat = 34 then [Char.ofNat 92, Char.ofNat 34]
  else if c.toNat = 92 then [Char.ofNat 92, Char.ofNat 92]
  else if c.toNat = 10 then [Char.ofNat 92, Char.ofNat 110]
  else if c.toNat = 9 then [Char.ofNat 92, Char.ofNat 116]
  else if c.toNat = 13 then [Char.ofNat 92, Char.ofNat 114]
  else if c.toNat = 8 then [Char.ofNat 92, Char.ofNat 98]
  else if c.toNat = 12 then [Char.ofNat 92, Char.ofNat 102]
  else if c.toNat < 32 then uEscape c.toNat
  else if c.toNat ≤ 126 then [c]
  else if c.toNat ≤ 65535 then uEscape c.toNat
  else uEscape (55296 + (c.toNat - 65536) / 1024) ++ uEscape (56320 + (c.toNat - 65536) % 1024)

/-- Escape every character of a string body. -/
def escapeChars : List Char → List Char
  | [] => []
  | c :: rest => escapeChar c ++ escapeChars rest

/-- A JSON string literal: escaped body between double quotes. -/
def dumpsStr (s : String) : String := ⟨[Char.ofNat 34] ++ escapeChars s.data ++ [Char.ofNat 34]⟩

mutual
/-- `json.dumps(value)` with the default separators `", "` and `": "`, as
called at utils.py line 85. -/
def jsonDumps : Json → String
  | .null => "null"
  | .bool true => "true"
  | .bool false => "false"
  | .num n => toString n
  | .str s => dumpsStr s
  | .arr items => "[" ++ dumpsElems items ++ "]"
  | .obj fields => "\x7b" ++ dumpsMembers fields ++ "\x7d"
/-- Array elements joined by the default item separator. -/
def dumpsElems : List Json → String
  | [] => ""
  | [j] => jsonDumps j
  | j :: rest => jsonDumps j ++ ", " ++ dumpsElems rest
/-- Object members `"key": value` joined by the default item separator. -/
def dumpsMembers : List (String × Json) → String
  | [] => ""
  | [(k, v)] => dumpsStr k ++ ": " ++ jsonDumps v
  | (k, v) :: rest => dumpsStr k ++ ": " ++ jsonDumps v ++ ", " ++ dumpsMembers rest
end

/-- The two successive `str.replace` calls of utils.py line 86: every double
quote (34) and single quote (39) removed. -/
def stripQuotes (s : String) : String := ⟨s.data.filter (fun c => !(c.toNat = 34 || c.toNat = 39))⟩

/-- `normalized_json_string` of utils.py lines 85-86: serialize the evidence
document and strip all quotes. -/
def normalizedEvidence (jsonString : Json) : String := stripQuotes (jsonDumps jsonString)

/-! ### Column records and the schema extractor -/

/-- One column dict flowing through the pipeline.  Created by the extractor
with just `table` and `column`; `get_classified_columns` later adds the keys
`used` (utils.py line 109) and `unused` (line 113), and `_insert_all_columns`
may set `unused`.  `none` models an absent dict key. -/
structure ColumnEntry where
  table : String
  column : String
  used : Option Bool := none
  unused : Option Bool := none
deriving Repr, DecidableEq

/-- One property dict of the conceptual schema: `Name` may be absent. -/
structure PBProperty where
  name : Option String
deriving Repr, DecidableEq

/-- One entity dict: `Name` may be absent; `Properties` defaults to empty. -/
structure PBEntity where
  name : Option String
  properties : List PBProperty
deriving Repr, DecidableEq

/-- One member of the `schemas` list of a well-formed conceptual-schema
response: `error` models the truthiness of `schema.get('error')`, `entities`
the list `schema.get('schema', {}).get('Entities', [])`. -/
structure PBSchema where
  error : Bool
  entities : List PBEntity
deriving Repr, DecidableEq

/-- Column dicts produced for one entity (utils.py lines 52-55): missing
names fall back to the sentinels. -/
def entityColumns (entity : PBEntity) : List ColumnEntry :=
  entity.properties.map (fun prop =>
    { table := entity.name.getD "UnknownTable", column := prop.name.getD "UnknownColumn" })

/-- `_extract_tables_and_columns` (utils.py lines 39-57): walk the schemas in
order; a truthy `error` breaks out of the loop, keeping what was accumulated
from earlier schemas and dropping this one and the rest. -/
def extractTablesAndColumns : List PBSchema → List ColumnEntry
  | [] => []
  | schema :: rest =>
    if schema.error then []
    else (schema.entities.flatMap entityColumns) ++ extractTablesAndColumns rest

/-- The filter of utils.py lines 68-70: drop a pair when either synthetic
date-table marker occurs in the table name. -/
def keepColumn (item : ColumnEntry) : Bool :=
  !(occursIn "DateTableTemplate".data item.table.data)
    && !(occursIn "LocalDateTable".data item.table.data)

/-- `fetch_columns_and_tables(conceptual_schema)` (utils.py lines 60-71). -/
def fetchColumnsAndTables (conceptualSchema : List PBSchema) : List ColumnEntry :=
  (extractTablesAndColumns conceptualSchema).filter keepColumn

/-! ### The usage classifier: get_classified_columns -/

/-- Candidate-unused test of utils.py lines 87-88: the literal
`table.column` does not occur in the quote-stripped evidence text. -/
def isCandidateUnused (normalized : String) (c : ColumnEntry) : Bool :=
  !(occursIn (c.table ++ "." ++ c.column).data normalized.data)

/-- `unused_columns_and_tables` (utils.py lines 87-88). -/
def unusedColumnsAndTables (reportColumns : List ColumnEntry) (jsonString : Json) : List ColumnEntry :=
  reportColumns.filter (isCandidateUnused (normalizedEvidence jsonString))

/-- One `tables[t].append(c)` step on the insertion-ordered dict of utils.py
lines 89-93: append to the entry of an existing key, else add the key at the
end. -/
def insertTableColumn : List (String × List String) → String → String → List (String × List String)
  | [], t, c => [(t, [c])]
  | p :: ps, t, c => if p.1 = t then (p.1, p.2 ++ [c]) :: ps else p :: insertTableColumn ps t c

/-- The `tables` dict after the grouping loop of utils.py lines 90-93. -/
def tablesOfColumns (reportColumns : List ColumnEntry) : List (String × List String) :=
  reportColumns.foldl (fun acc c => insertTableColumn acc c.table c.column) []

/-- Dict lookup on the association list. -/
def lookupTable : List (String × List String) → String → Option (List String)
  | [], _ => none
  | p :: ps, t => if p.1 = t then some p.2 else lookupTable ps t

/-- `table_unused_columns` for one table (utils.py lines 97-98). -/
def tableUnusedColumns (unusedCT : List ColumnEntry) (table : String) : List String :=
  (unusedCT.filter (fun c => c.table = table)).map (fun c => c.column)

/-- Python string comparison: lexicographic on code points. -/
def charListLe : List Char → List Char → Bool
  | [], _ => true
  | _ :: _, [] => false
  | a :: as, b :: bs =>
    if a.toNat < b.toNat then true else if b.toNat < a.toNat then false else charListLe as bs

/-- Insert into an already sorted list of strings. -/
def insertSorted (x : String) : List String → List String
  | [] => [x]
  | y :: ys => if charListLe x.data y.data then x :: y :: ys else y :: insertSorted x ys

/-- Python `list.sort()` on strings: the ascending sorted rearrangement
(insertion sort; equal strings are indistinguishable, so any stable sort
produces this same list). -/
def sortStrings (l : List String) : List String := l.foldr insertSorted []

/-- Loop body of utils.py lines 96-106 for one `(table, columns)` item of the
`tables` dict: `continue` when no candidate-unused column, the `[.*]`
wildcard when the sorted lists coincide, the explicit sorted listing when
some column of the table is not candidate-unused. -/
def tableEntry (unusedCT : List ColumnEntry) (table : String) (columns : List String) : Option String :=
  let tableUnused := tableUnusedColumns unusedCT table
  if tableUnused.isEmpty then none
  else
    let sortedColumns := sortStrings columns
    let sortedUnused := sortStrings tableUnused
    if sortedUnused = sortedColumns then some (table ++ ": [.*]")
    else if sortedColumns.any (fun c => !(sortedUnused.contains c)) then
      some (table ++ ": [" ++ String.intercalate ", " sortedUnused ++ "]")
    else none

/-- The `unused_columns` list built by the loop of utils.py lines 95-106, one
optional summary entry per table of the grouping dict, in dict order. -/
def unusedSummaries (reportColumns : List ColumnEntry) (jsonString : Json) : List String :=
  (tablesOfColumns reportColumns).filterMap
    (fun p => tableEntry (unusedColumnsAndTables reportColumns jsonString) p.1 p.2)

/-- Mutation of one column dict by the loop of utils.py lines 108-114: the
key `used` is set to False on every column, and `unused` is set to True when
some candidate-unused record carries the same table and column (the `break`
after the first match changes nothing observable). -/
def markColumn (unusedCT : List ColumnEntry) (c : ColumnEntry) : ColumnEntry :=
  let c1 := { c with used := some false }
  if unusedCT.any (fun u => u.table = c.table && u.column = c.column) then
    { c1 with unused := some true }
  else c1

/-- `get_classified_columns(report_columns, json_string)` (utils.py lines
74-116): the comma-space join of the summary entries, and the columns after
the marking loop. -/
def getClassifiedColumns (reportColumns : List ColumnEntry) (jsonString : Json) :
    String × List ColumnEntry :=
  (String.intercalate ", " (unusedSummaries reportColumns jsonString),
   reportColumns.map (markColumn (unusedColumnsAndTables reportColumns jsonString)))

/-- Columns of one table in original encounter order, used to state what the
grouping dict holds for that table. -/
def columnsOfTable (reportColumns : List ColumnEntry) (table : String) : List String :=
  (reportColumns.filter (fun c => c.table = table)).map (fun c => c.column)

/-! ### The scan accumulator: BaseAnalyzer state and _insert_all_columns -/

/-- Mutable scan-wide fields of `BaseAnalyzer.__init__` that the engine
updates (`_total_columns_scanned` is never written outside `__init__` and is
omitted).  `ρ` is the per-analyzer shape of a result row. -/
structure ScanState (ρ : Type) where
  results : List ρ
  successCount : Nat
  reportsWithHidden : Nat
  reportsWithUnused : Nat
  unusedColumns : List ColumnEntry
  errors : List (String × String)
deriving Repr, DecidableEq

/-- Fresh state as built by `BaseAnalyzer.__init__`. -/
def initialScanState (ρ : Type) : ScanState ρ := ⟨[], 0, 0, 0, [], []⟩

/-- Body of the loop of base_analyzer.py lines 34-43 for one incoming column:
when no accumulator entry has the same (table, column) pair the column dict
itself is appended; otherwise every matching entry gets `unused = True`,
whatever the incoming column's flags say. -/
def insertColumnEntry (acc : List ColumnEntry) (column : ColumnEntry) : List ColumnEntry :=
  if acc.any (fun e => e.table = column.table && e.column = column.column) then
    acc.map (fun e =>
      if e.table = column.table && e.column = column.column then { e with unused := some true }
      else e)
  else acc ++ [column]

/-- `BaseAnalyzer._insert_all_columns(all_columns, num_of_hidden)`
(base_analyzer.py lines 30-43). -/
def insertAllColumns {ρ : Type} (st : ScanState ρ) (allColumns : List ColumnEntry)
    (numOfHidden : Nat) : ScanState ρ :=
  let st1 := if numOfHidden > 0 then { st with reportsWithHidden := st.reportsWithHidden + 1 } else st
  { st1 with unusedColumns := allColumns.foldl insertColumnEntry st1.unusedColumns }

/-! ### Per-report processing and the coordinator

The network collaborators are abstracted by the outcome they produce for one
report: either the fetched documents or a raised exception.  The fetched
conceptual schema is carried in two views of the same document: the raw JSON
tree fed to `count_hidden_true_in_dict` and the well-formed typed view fed to
`fetch_columns_and_tables`.  The thread pool of `_run_analysis` is modelled
by processing the submitted tasks in one completion order; the claims proved
below do not depend on which order that is. -/

/-- The fetched conceptual-schema document, in both views. -/
structure ConceptualDoc where
  raw : Json
  schemas : List PBSchema

/-- An exception raised while fetching one report's documents. -/
inductive FetchErr where
  | explorationError (code : String)
  | generic (message : String)

/-- Identification tuple of one shared report (artifact id, sharer display
name, report display name), as unpacked at power_bi_shared_reports_analyzer.py
line 162. -/
structure SharedReport where
  reportId : String
  sharerName : String
  name : String
deriving Repr, DecidableEq

/-- One CSV row of the shared analyzer (line 178): report id, name, sharer,
hidden count, unused-columns message. -/
structure SharedRow where
  reportId : String
  name : String
  sharerName : String
  numOfHidden : Nat
  unusedMessage : String
deriving Repr, DecidableEq

/-- What the external calls produce for one shared report: a falsy
push-access response (the body under `if response_data:` is skipped), the
fetched documents, or an exception out of `_get_report_data`. -/
inductive SharedFetch where
  | pushAccessDenied
  | fetched (doc : ConceptualDoc) (exploration : Json)
  | raises (e : FetchErr)

/-- `SharedReportsAnalyzer._process_report` (lines 160-182).  The whole body
sits in one `try` whose handler is a blanket `except Exception` that only
debug-prints, so every raised exception - the TimeoutError of the budget
check at line 166 included, TimeoutError being an Exception subclass - is
swallowed and the method returns normally with the state as mutated so far
(nothing was mutated yet on any raising path).  Nothing is ever appended to
the error list. -/
def sharedProcessReport (st : ScanState SharedRow) (report : SharedReport) (overBudget : Bool)
    (fetch : SharedFetch) : ScanState SharedRow :=
  if overBudget then st
  else match fetch with
    | .raises _ => st
    | .pushAccessDenied => st
    | .fetched doc exploration =>
      let numOfHidden := countHiddenTrueInDict doc.raw
      let columnsAndTables := fetchColumnsAndTables doc.schemas
      let classified := getClassifiedColumns columnsAndTables exploration
      let st1 := insertAllColumns st classified.2 numOfHidden
      let st2 := { st1 with successCount := st1.successCount + 1 }
      if classified.1 = "" then st2
      else { st2 with
              reportsWithUnused := st2.reportsWithUnused + 1,
              results := st2.results ++
                [⟨report.reportId, report.name, report.sharerName, numOfHidden, classified.1⟩] }

/-- One submitted shared-report task: its target, whether the wall clock is
already past the budget when the task runs, and what the fetch produces. -/
structure SharedTask where
  report : SharedReport
  overBudget : Bool
  fetch : SharedFetch

/-- `_run_analysis` (base_analyzer.py lines 84-105) driving the shared
analyzer: every future completes normally because `_process_report` catches
every exception itself, so the `except TimeoutError` branch of the
coordinator never fires, no future is ever cancelled, and `timed_out` stays
False. -/
def runAnalysisShared (st : ScanState SharedRow) : List SharedTask → ScanState SharedRow × Bool
  | [] => (st, false)
  | task :: rest => runAnalysisShared (sharedProcessReport st task.report task.overBudget task.fetch) rest

/-- One CSV row of the public analyzer (line 134): the input row without its
embed URL, then the hidden count and the unused-columns message. -/
structure PublicRow where
  meta : List String
  numOfHidden : Nat
  unusedMessage : String
deriving Repr, DecidableEq

/-- What the external calls produce for one public report. -/
inductive PublicFetch where
  | fetched (doc : ConceptualDoc) (exploration : Json)
  | raises (e : FetchErr)

/-- `PublicReportsAnalyzer._process_report` (lines 121-145).  Its handlers:
an ExplorationRequestError is recorded in the error list as
`[row[0], e.args[1]]`; a TimeoutError is re-raised to the caller (modelled by
`Except.error ()`); any other exception is swallowed with only a debug
print. -/
def publicProcessReport (st : ScanState PublicRow) (row : List String) (overBudget : Bool)
    (fetch : PublicFetch) : Except Unit (ScanState PublicRow) :=
  if overBudget then .error ()
  else match fetch with
    | .raises (.explorationError code) => .ok { st with errors := st.errors ++ [(row.headD "", code)] }
    | .raises (.generic _) => .ok st
    | .fetched doc exploration =>
      let reportColumns := fetchColumnsAndTables doc.schemas
      let numOfHidden := countHiddenTrueInDict doc.raw
      let classified := getClassifiedColumns reportColumns exploration
      let st1 := insertAllColumns st classified.2 numOfHidden
      let st2 := { st1 with successCount := st1.successCount + 1 }
      .ok (if classified.1 = "" then st2
        else { st2 with
                reportsWithUnused := st2.reportsWithUnused + 1,
                results := st2.results ++ [⟨row.dropLast, numOfHidden, classified.1⟩] })

/-- One submitted public-report task. -/
structure PublicTask where
  row : List String
  overBudget : Bool
  fetch : PublicFetch

/-- `_run_analysis` driving the public analyzer: the only exception a future
can deliver is the re-raised TimeoutError; the coordinator catches it, sets
`timed_out`, shuts the executor down cancelling the pending futures and
breaks, leaving the state as accumulated so far.  `analyze` wraps the whole
run in a further `try`, so nothing escapes the scan. -/
def runAnalysisPublic (st : ScanState PublicRow) : List PublicTask → ScanState PublicRow × Bool
  | [] => (st, false)
  | task :: rest =>
    match publicProcessReport st task.row task.overBudget task.fetch with
    | .ok st1 => runAnalysisPublic st1 rest
    | .error _ => (st, true)

/-- Tasks whose fetch yields documents (the ones that reach the success
increment when the budget is not exceeded). -/
def isSuccessfulFetch (task : PublicTask) : Bool :=
  match task.fetch with
  | .fetched _ _ => true
  | _ => false

/-- The error-list entry a public task produces, if any: only an
ExplorationRequestError is recorded, keyed by `row[0]`. -/
def errorEntry (task : PublicTask) : Option (String × String) :=
  match task.fetch with
  | .raises (.explorationError code) => some (task.row.headD "", code)
  | _ => none

/-! ### The rate-limited fetch: _send_conceptual_schema_request -/

mutual
/-- Once the exclusion flag is set nothing below contributes to the count. -/
theorem recursiveCount_skip_true : ∀ j, recursiveCount true j = 0
  | .null => rfl
  | .bool _ => rfl
  | .num _ => rfl
  | .str _ => rfl
  | .arr items => by simp [recursiveCount, recursiveCountList_skip_true items]
  | .obj fields => by simp [recursiveCount, recursiveCountFields_skip_true fields]
/-- List form of `recursiveCount_skip_true`. -/
theorem recursiveCountList_skip_true : ∀ l, recursiveCountList true l = 0
  | [] => rfl
  | j :: rest => by simp [recursiveCountList, recursiveCount_skip_true j, recursiveCountList_skip_true rest]
/-- Dict form of `recursiveCount_skip_true`. -/
theorem recursiveCountFields_skip_true : ∀ f, recursiveCountFields true f = 0
  | [] => rfl
  | (k, v) :: rest => by
    simp only [recursiveCountFields]
    have h2 : (if k = "Name" && isTriggerName v then true else true) = true := by split <;> rfl
    simp [h2, recursiveCount_skip_true v, recursiveCountFields_skip_true rest]
end

/-- Splitting the item loop of `recursive_count`: the right part is counted
with the flag as evolved over the left part, which is `true` exactly when the
left part contains a triggering `Name` field. -/
theorem recursiveCountFields_append (l1 l2 : List (String × Json)) (skip : Bool) :
    recursiveCountFields skip (l1 ++ l2) =
      recursiveCountFields skip l1 + recursiveCountFields (skip || hasTriggerField l1) l2 := by
  induction l1 generalizing skip with
  | nil => simp [recursiveCountFields, hasTriggerField]
  | cons kv rest ih =>
    obtain ⟨k, v⟩ := kv
    simp only [List.cons_append, recursiveCountFields, hasTriggerField, List.any_cons,
      List.append_eq]
    rw [ih]
    by_cases h : (k = "Name" && isTriggerName v) = true <;>
      simp [hasTriggerField, h] <;> ring

/-- In a dict without a triggering `Name` field the flag never changes, so
the loop is a plain sum of independent per-item contributions. -/
theorem recursiveCountFields_eq_sum (skip : Bool) (fields : List (String × Json))
    (h : hasTriggerField fields = false) :
    recursiveCountFields skip fields = (fields.map (fieldContrib skip)).sum := by
  induction fields with
  | nil => simp [recursiveCountFields]
  | cons kv rest ih =>
    obtain ⟨k, v⟩ := kv
    simp only [hasTriggerField, List.any_cons, Bool.or_eq_false_iff] at h
    simp [recursiveCountFields, fieldContrib, h.1, ih h.2]

/-! ## C2: subtree exclusion in the hidden-column counter -/

/-- C2 (corrected): the claim that a triggering `Name` field excludes the
*whole* containing object fails; what holds is that the exclusion takes
effect at the `Name` field: every `Hidden: true` at or after the triggering
`Name` key of the object (and everything inside the values from that point
on, the `Name` value included) contributes nothing, so the object counts
exactly what its fields *before* the `Name` key count. -/
theorem recursiveCount_trigger_excludes_tail (skip : Bool) (pre post : List (String × Json))
    (s : String) (h : isTriggerName (Json.str s) = true) :
    recursiveCount skip (.obj (pre ++ ("Name", Json.str s) :: post))
      = recursiveCount skip (.obj pre) := by
  simp only [recursiveCount]
  rw [recursiveCountFields_append]
  simp only [recursiveCountFields, h]
  have hname : (("Name" : String) = "Name" && isTriggerName (Json.str s)) = true := by
    simp [h]
  simp [hname, recursiveCount_skip_true, recursiveCountFields_skip_true]

/-- Witness for C2: a concrete triggering name, a `Hidden: true` sibling
before it (still counted) and one nested after it (not counted). -/
theorem recursiveCount_trigger_excludes_tail_witness :
    isTriggerName (Json.str "LocalDateTable_00") = true ∧
    recursiveCount false (.obj ([("Hidden", Json.bool true)] ++
        ("Name", Json.str "LocalDateTable_00") :: [("X", Json.obj [("Hidden", Json.bool true)])]))
      = recursiveCount false (.obj [("Hidden", Json.bool true)]) :=
  ⟨by decide, recursiveCount_trigger_excludes_tail false _ _ _ (by decide)⟩

/-- Counterexample to C2 as stated: in an object whose `Hidden: true` comes
*before* the triggering `Name` key, the flag is still counted (the claim
demands a count of 0 for this document). -/
theorem countHidden_before_trigger_is_counted :
    countHiddenTrueInDict (.obj [("Hidden", Json.bool true), ("Name", Json.str "DateTableTemplate_X")]) = 1
    ∧ (1 : Nat) ≠ 0 :=
  ⟨rfl, by decide⟩

/-! ## C3: key-order invariance of the hidden-column counter -/

/-- C3 (corrected): the count is invariant under permuting the sibling keys
of an object only when the object has no triggering `Name` field; this holds
for every inherited value of the exclusion flag. -/
theorem recursiveCount_perm_invariant (skip : Bool) (fields fields2 : List (String × Json))
    (hperm : fields.Perm fields2) (htrig : hasTriggerField fields = false) :
    recursiveCount skip (.obj fields) = recursiveCount skip (.obj fields2) := by
  have htrig2 : hasTriggerField fields2 = false := by
    rw [hasTriggerField, List.any_eq_false] at htrig ⊢
    intro x hx
    exact htrig x (hperm.mem_iff.mpr hx)
  simp only [recursiveCount]
  rw [recursiveCountFields_eq_sum skip fields htrig, recursiveCountFields_eq_sum skip fields2 htrig2]
  exact List.Perm.sum_eq (List.Perm.map (fieldContrib skip) hperm)

/-- Witness for C3: swapping the two keys of a trigger-free object leaves the
count unchanged. -/
theorem recursiveCount_perm_invariant_witness :
    hasTriggerField [("A", Json.null), ("Hidden", Json.bool true)] = false ∧
    recursiveCount false (.obj [("A", Json.null), ("Hidden", Json.bool true)])
      = recursiveCount false (.obj [("Hidden", Json.bool true), ("A", Json.null)]) :=
  ⟨by decide,
   recursiveCount_perm_invariant false _ _ (List.Perm.swap ("Hidden", Json.bool true) ("A", Json.null) [])
     (by decide)⟩

/-- Counterexample to C3 as stated: swapping the `Name` and `Hidden` keys of
the same object changes the count from 0 to 1. -/
theorem countHidden_sibling_order_matters :
    ([(("Name" : String), Json.str "DateTableTemplate_X"), ("Hidden", Json.bool true)]).Perm
      [(("Hidden" : String), Json.bool true), ("Name", Json.str "DateTableTemplate_X")]
    ∧ countHiddenTrueInDict (.obj [("Name", Json.str "DateTableTemplate_X"), ("Hidden", Json.bool true)]) = 0
    ∧ countHiddenTrueInDict (.obj [("Hidden", Json.bool true), ("Name", Json.str "DateTableTemplate_X")]) = 1 :=
  ⟨List.Perm.swap ("Hidden", Json.bool true) ("Name", Json.str "DateTableTemplate_X") [], rfl, rfl⟩

/-! ## Helper lemmas: the global unused-column accumulator -/

/-- The accumulator after `_insert_all_columns` is the fold of the incoming
columns over the per-column insertion; the hidden-count bookkeeping does not
touch it. -/
theorem insertAllColumns_unusedCols {ρ : Type} (st : ScanState ρ) (allColumns : List ColumnEntry)
    (numOfHidden : Nat) :
    (insertAllColumns st allColumns numOfHidden).unusedColumns
      = allColumns.foldl insertColumnEntry st.unusedColumns := by
  unfold insertAllColumns
  split <;> rfl

/-- `_insert_all_columns` does not touch the success counter. -/
theorem insertAllColumns_successCount {ρ : Type} (st : ScanState ρ) (allColumns : List ColumnEntry)
    (numOfHidden : Nat) :
    (insertAllColumns st allColumns numOfHidden).successCount = st.successCount := by
  unfold insertAllColumns
  split <;> rfl

/-- `_insert_all_columns` does not touch the error list. -/
theorem insertAllColumns_errors {ρ : Type} (st : ScanState ρ) (allColumns : List ColumnEntry)
    (numOfHidden : Nat) :
    (insertAllColumns st allColumns numOfHidden).errors = st.errors := by
  unfold insertAllColumns
  split <;> rfl

/-- The per-entry update of the marking loop never changes the table. -/
theorem markUpdate_table (d e : ColumnEntry) :
    ((if e.table = d.table && e.column = d.column then { e with unused := some true } else e) :
      ColumnEntry).table = e.table := by
  split <;> rfl

/-- The per-entry update of the marking loop never changes the column. -/
theorem markUpdate_column (d e : ColumnEntry) :
    ((if e.table = d.table && e.column = d.column then { e with unused := some true } else e) :
      ColumnEntry).column = e.column := by
  split <;> rfl

/-- The per-entry update of the marking loop never clears a True flag. -/
theorem markUpdate_unused_true (d e : ColumnEntry) (hu : e.unused = some true) :
    ((if e.table = d.table && e.column = d.column then { e with unused := some true } else e) :
      ColumnEntry).unused = some true := by
  split
  · rfl
  · exact hu

/-- A (table, column) pair present in the accumulator stays present across one
per-column insertion. -/
theorem insertColumnEntry_preserves_pair (acc : List ColumnEntry) (d : ColumnEntry) (t c : String)
    (h : ∃ e ∈ acc, e.table = t ∧ e.column = c) :
    ∃ e ∈ insertColumnEntry acc d, e.table = t ∧ e.column = c := by
  obtain ⟨e, he, het, hec⟩ := h
  unfold insertColumnEntry
  split
  · exact ⟨_, List.mem_map_of_mem _ he,
      (markUpdate_table d e).trans het, (markUpdate_column d e).trans hec⟩
  · exact ⟨e, List.mem_append_left _ he, het, hec⟩

/-- A pair present in the accumulator stays present across a whole batch. -/
theorem foldl_insertColumnEntry_preserves_pair (cols : List ColumnEntry) (t c : String) :
    ∀ (acc : List ColumnEntry), (∃ e ∈ acc, e.table = t ∧ e.column = c) →
      ∃ e ∈ cols.foldl insertColumnEntry acc, e.table = t ∧ e.column = c := by
  induction cols with
  | nil => exact fun acc h => h
  | cons d rest ih =>
    intro acc h
    exact ih _ (insertColumnEntry_preserves_pair acc d t c h)

/-- A pair recorded with `unused = True` keeps that flag across one
per-column insertion: the insertion either appends a fresh pair or only
*sets* flags to True, never clears one. -/
theorem insertColumnEntry_preserves_marked (acc : List ColumnEntry) (d : ColumnEntry) (t c : String)
    (h : ∃ e ∈ acc, e.table = t ∧ e.column = c ∧ e.unused = some true) :
    ∃ e ∈ insertColumnEntry acc d, e.table = t ∧ e.column = c ∧ e.unused = some true := by
  obtain ⟨e, he, het, hec, hu⟩ := h
  unfold insertColumnEntry
  split
  · exact ⟨_, List.mem_map_of_mem _ he, (markUpdate_table d e).trans het,
      (markUpdate_column d e).trans hec, markUpdate_unused_true d e hu⟩
  · exact ⟨e, List.mem_append_left _ he, het, hec, hu⟩

/-- Batch form of `insertColumnEntry_preserves_marked`. -/
theorem foldl_insertColumnEntry_preserves_marked (cols : List ColumnEntry) (t c : String) :
    ∀ (acc : List ColumnEntry), (∃ e ∈ acc, e.table = t ∧ e.column = c ∧ e.unused = some true) →
      ∃ e ∈ cols.foldl insertColumnEntry acc, e.table = t ∧ e.column = c ∧ e.unused = some true := by
  induction cols with
  | nil => exact fun acc h => h
  | cons d rest ih =>
    intro acc h
    exact ih _ (insertColumnEntry_preserves_marked acc d t c h)

/-- Inserting a column whose pair is already present marks every matching
accumulator entry `unused = True`. -/
theorem insertColumnEntry_marks_present (acc : List ColumnEntry) (d : ColumnEntry)
    (hQ : ∃ e ∈ acc, e.table = d.table ∧ e.column = d.column) :
    ∀ e ∈ insertColumnEntry acc d, e.table = d.table → e.column = d.column → e.unused = some true := by
  have hany : (acc.any (fun e => e.table = d.table && e.column = d.column)) = true := by
    obtain ⟨e, he, het, hec⟩ := hQ
    exact List.any_eq_true.mpr ⟨e, he, by simp [het, hec]⟩
  intro e2 he2 ht hc
  rw [insertColumnEntry, if_pos hany] at he2
  obtain ⟨e, he, rfl⟩ := List.mem_map.mp he2
  by_cases hm : (e.table = d.table && e.column = d.column) = true
  · simp [hm]
  · rw [if_neg hm] at ht hc ⊢
    exact absurd (by simp [ht, hc]) hm

/-- Once every matching entry is marked and the pair is present, a later
per-column insertion keeps both facts: an insertion of the same pair re-marks
the matching entries, an insertion of a different pair does not touch them
(and cannot append a fresh unmarked copy of this pair). -/
theorem insertColumnEntry_keeps_all_marked (acc : List ColumnEntry) (d : ColumnEntry) (t c : String)
    (hQ : ∃ e ∈ acc, e.table = t ∧ e.column = c)
    (hR : ∀ e ∈ acc, e.table = t → e.column = c → e.unused = some true) :
    (∃ e ∈ insertColumnEntry acc d, e.table = t ∧ e.column = c)
    ∧ ∀ e ∈ insertColumnEntry acc d, e.table = t → e.column = c → e.unused = some true := by
  refine ⟨insertColumnEntry_preserves_pair acc d t c hQ, ?_⟩
  by_cases hd : d.table = t ∧ d.column = c
  · have hQ2 : ∃ e ∈ acc, e.table = d.table ∧ e.column = d.column := by
      obtain ⟨e, he, het, hec⟩ := hQ
      exact ⟨e, he, by rw [hd.1, het], by rw [hd.2, hec]⟩
    intro e he ht hc
    exact insertColumnEntry_marks_present acc d hQ2 e he (by rw [hd.1, ht]) (by rw [hd.2, hc])
  · intro e2 he2 ht hc
    rw [insertColumnEntry] at he2
    split at he2
    · obtain ⟨e, he, rfl⟩ := List.mem_map.mp he2
      by_cases hm : (e.table = d.table && e.column = d.column) = true
      · rw [if_pos hm] at ht hc
        simp only [Bool.and_eq_true, decide_eq_true_eq] at hm
        exact absurd ⟨hm.1.symm.trans ht, hm.2.symm.trans hc⟩ hd
      · rw [if_neg hm] at ht hc ⊢
        exact hR e he ht hc
    · rcases List.mem_append.mp he2 with he | he
      · exact hR e2 he ht hc
      · rw [List.mem_singleton] at he
        subst he
        exact absurd ⟨ht, hc⟩ hd

/-- Batch form of `insertColumnEntry_keeps_all_marked`. -/
theorem foldl_insertColumnEntry_keeps_all_marked (cols : List ColumnEntry) (t c : String) :
    ∀ (acc : List ColumnEntry),
      (∃ e ∈ acc, e.table = t ∧ e.column = c) →
      (∀ e ∈ acc, e.table = t → e.column = c → e.unused = some true) →
      ∀ e ∈ cols.foldl insertColumnEntry acc, e.table = t → e.column = c → e.unused = some true := by
  induction cols with
  | nil => exact fun acc _ hR => hR
  | cons d rest ih =>
    intro acc hQ hR
    obtain ⟨hQ2, hR2⟩ := insertColumnEntry_keeps_all_marked acc d t c hQ hR
    exact ih _ hQ2 hR2

/-! ## C6: a pair already present is re-marked unused unconditionally -/

/-- C6 (confirmed): when `_insert_all_columns` processes an incoming column
whose (table, column) pair is already present in the global accumulator,
every accumulator entry carrying that pair ends the call with
`unused = True`, whatever the incoming column's own flags were. -/
theorem insertAllColumns_marks_existing {ρ : Type} (st : ScanState ρ)
    (allColumns : List ColumnEntry) (numOfHidden : Nat) (c : ColumnEntry)
    (hc : c ∈ allColumns)
    (hpresent : ∃ e ∈ st.unusedColumns, e.table = c.table ∧ e.column = c.column) :
    ∀ e ∈ (insertAllColumns st allColumns numOfHidden).unusedColumns,
      e.table = c.table → e.column = c.column → e.unused = some true := by
  rw [insertAllColumns_unusedCols]
  obtain ⟨l1, l2, rfl⟩ := List.append_of_mem hc
  rw [List.foldl_append, List.foldl_cons]
  have hQ1 := foldl_insertColumnEntry_preserves_pair l1 c.table c.column st.unusedColumns hpresent
  have hR := insertColumnEntry_marks_present _ c hQ1
  have hQ2 := insertColumnEntry_preserves_pair _ c c.table c.column hQ1
  exact foldl_insertColumnEntry_keeps_all_marked l2 c.table c.column _ hQ2 hR

/-- Witness for C6: the pair ("T", "a") was recorded by a first report
without the flag; a second report that *used* the column (flag absent,
`used = False`) still flips the stored entry to `unused = True`. -/
theorem insertAllColumns_marks_existing_witness :
    (⟨"T", "a", none, some true⟩ : ColumnEntry).unused = some true := by
  have h := insertAllColumns_marks_existing
    (ρ := Unit) ⟨[], 0, 0, 0, [⟨"T", "a", none, none⟩], []⟩
    [⟨"T", "a", some false, none⟩] 0 ⟨"T", "a", some false, none⟩
    (by decide) ⟨⟨"T", "a", none, none⟩, by decide, rfl, rfl⟩
  exact h ⟨"T", "a", none, some true⟩ (by decide) rfl rfl

/-! ## C8: the ever-unused flag is monotone across the scan -/

/-- C8 (confirmed): across any sequence of `_insert_all_columns` calls, once
some accumulator entry records a pair with `unused = True`, an entry with
that pair and `unused = True` is still there after the remaining calls: no
later report reverts the pair to used. -/
theorem insertAllColumns_unused_monotone {ρ : Type} (st : ScanState ρ)
    (batches : List (List ColumnEntry × Nat)) (t c : String)
    (h : ∃ e ∈ st.unusedColumns, e.table = t ∧ e.column = c ∧ e.unused = some true) :
    ∃ e ∈ (batches.foldl (fun s b => insertAllColumns s b.1 b.2) st).unusedColumns,
      e.table = t ∧ e.column = c ∧ e.unused = some true := by
  induction batches generalizing st with
  | nil => exact h
  | cons b rest ih =>
    rw [List.foldl_cons]
    refine ih _ ?_
    rw [insertAllColumns_unusedCols]
    exact foldl_insertColumnEntry_preserves_marked b.1 t c st.unusedColumns h

/-- Witness for C8: the pair ("T", "a") marked unused survives two later
batches, one of which re-inserts the pair coming from a report that used
it. -/
theorem insertAllColumns_unused_monotone_witness :
    ∃ e ∈ (([([⟨"T", "a", some false, none⟩], 1), ([⟨"U", "b", some false, some true⟩], 0)] :
        List (List ColumnEntry × Nat)).foldl (fun s b => insertAllColumns s b.1 b.2)
        (⟨[], 0, 0, 0, [⟨"T", "a", some false, some true⟩], []⟩ : ScanState Unit)).unusedColumns,
      e.table = "T" ∧ e.column = "a" ∧ e.unused = some true :=
  insertAllColumns_unused_monotone
    (⟨[], 0, 0, 0, [⟨"T", "a", some false, some true⟩], []⟩ : ScanState Unit)
    [([⟨"T", "a", some false, none⟩], 1), ([⟨"U", "b", some false, some true⟩], 0)] "T" "a"
    ⟨⟨"T", "a", some false, some true⟩, by decide, rfl, rfl, rfl⟩

/-! ## C9: the schema extractor on well-formed documents -/

/-- Without error-carrying schemas the break never fires and the extractor is
the plain flattening of the nested document in encounter order. -/
theorem extractTablesAndColumns_no_error (schemas : List PBSchema)
    (hwf : ∀ s ∈ schemas, s.error = false) :
    extractTablesAndColumns schemas
      = schemas.flatMap (fun s => s.entities.flatMap entityColumns) := by
  induction schemas with
  | nil => rfl
  | cons s rest ih =>
    have hs : s.error = false := hwf s (List.mem_cons_self s rest)
    rw [extractTablesAndColumns, if_neg (by simp [hs]), List.flatMap_cons,
      ih (fun x hx => hwf x (List.mem_cons_of_mem s hx))]

/-- C9 (confirmed): on a well-formed document (no schema entry carries an
error) the output is exactly the source-order flattening, one entry per
(entity, property) pair with the sentinel defaults for missing names,
restricted to the pairs whose table name contains neither marker; every
emitted pair's table avoids both markers. -/
theorem fetchColumnsAndTables_spec (schemas : List PBSchema)
    (hwf : ∀ s ∈ schemas, s.error = false) :
    fetchColumnsAndTables schemas
      = (schemas.flatMap (fun s => s.entities.flatMap entityColumns)).filter keepColumn
    ∧ ∀ col ∈ fetchColumnsAndTables schemas,
        occursIn "DateTableTemplate".data col.table.data = false
        ∧ occursIn "LocalDateTable".data col.table.data = false := by
  constructor
  · rw [fetchColumnsAndTables, extractTablesAndColumns_no_error schemas hwf]
  · intro col hcol
    have hkeep := (List.mem_filter.mp hcol).2
    simp only [keepColumn, Bool.and_eq_true, Bool.not_eq_true'] at hkeep
    exact hkeep

/-- Witness for C9: a document with a named table, a property with a missing
name, a `LocalDateTable` entity (excluded) and an entity with a missing
name. -/
theorem fetchColumnsAndTables_spec_witness :
    fetchColumnsAndTables
        [⟨false, [⟨some "Sales", [⟨some "Qty"⟩, ⟨none⟩]⟩,
                  ⟨some "LocalDateTable_9", [⟨some "Year"⟩]⟩,
                  ⟨none, [⟨some "C"⟩]⟩]⟩]
      = (([⟨false, [⟨some "Sales", [⟨some "Qty"⟩, ⟨none⟩]⟩,
                    ⟨some "LocalDateTable_9", [⟨some "Year"⟩]⟩,
                    ⟨none, [⟨some "C"⟩]⟩]⟩] : List PBSchema).flatMap
          (fun s => s.entities.flatMap entityColumns)).filter keepColumn
    ∧ occursIn "DateTableTemplate".data "Sales".data = false
    ∧ occursIn "LocalDateTable".data "Sales".data = false := by
  have h := fetchColumnsAndTables_spec
    [⟨false, [⟨some "Sales", [⟨some "Qty"⟩, ⟨none⟩]⟩,
              ⟨some "LocalDateTable_9", [⟨some "Year"⟩]⟩,
              ⟨none, [⟨some "C"⟩]⟩]⟩]
    (by intro s hs; fin_cases hs; rfl)
  exact ⟨h.1, h.2 ⟨"Sales", "Qty", none, none⟩ (by decide)⟩

/-! ## C10: retry and backoff policy of the rate-limited fetch -/

/-- A successful public fetch under budget: the report is counted and the
error list is untouched. -/
theorem publicProcessReport_fetched (st : ScanState PublicRow) (row : List String)
    (doc : ConceptualDoc) (ex : Json) :
    ∃ st1, publicProcessReport st row false (.fetched doc ex) = .ok st1
      ∧ st1.successCount = st.successCount + 1 ∧ st1.errors = st.errors := by
  rw [publicProcessReport]
  refine ⟨_, rfl, ?_, ?_⟩
  · split <;> simp [insertAllColumns_successCount]
  · split <;> simp [insertAllColumns_errors]

/-- An ExplorationRequestError under budget: recorded by report identifier,
nothing else changes. -/
theorem publicProcessReport_exploration (st : ScanState PublicRow) (row : List String)
    (code : String) :
    publicProcessReport st row false (.raises (.explorationError code))
      = .ok { st with errors := st.errors ++ [(row.headD "", code)] } := rfl

/-- Any other exception under budget is swallowed: the state is unchanged. -/
theorem publicProcessReport_generic (st : ScanState PublicRow) (row : List String) (m : String) :
    publicProcessReport st row false (.raises (.generic m)) = .ok st := rfl

/-- The shared analyzer's `_process_report` never writes the error list, on
any path. -/
theorem sharedProcessReport_errors (st : ScanState SharedRow) (report : SharedReport)
    (overBudget : Bool) (fetch : SharedFetch) :
    (sharedProcessReport st report overBudget fetch).errors = st.errors := by
  rw [sharedProcessReport.eq_def]
  split
  · rfl
  · split
    · rfl
    · rfl
    · dsimp only
      split <;> simp [insertAllColumns_errors]

/-- The shared coordinator leaves the error list alone for a whole scan. -/
theorem runAnalysisShared_errors (st : ScanState SharedRow) (tasks : List SharedTask) :
    (runAnalysisShared st tasks).1.errors = st.errors := by
  induction tasks generalizing st with
  | nil => rfl
  | cons task rest ih =>
    rw [runAnalysisShared, ih, sharedProcessReport_errors]

/-- Public-analyzer scan behaviour when the budget is never exceeded: every
document-yielding report is counted as a success, the error list gains
exactly the ExplorationRequestError entries keyed by `row[0]`, and the scan
does not time out. -/
theorem runAnalysisPublic_spec (st : ScanState PublicRow) (tasks : List PublicTask)
    (hob : ∀ task ∈ tasks, task.overBudget = false) :
    (runAnalysisPublic st tasks).1.successCount
        = st.successCount + (tasks.filter isSuccessfulFetch).length
    ∧ (runAnalysisPublic st tasks).1.errors = st.errors ++ tasks.filterMap errorEntry
    ∧ (runAnalysisPublic st tasks).2 = false := by
  induction tasks generalizing st with
  | nil => simp [runAnalysisPublic]
  | cons task rest ih =>
    have ht : task.overBudget = false := hob task (List.mem_cons_self task rest)
    have hrest : ∀ t ∈ rest, t.overBudget = false :=
      fun t hx => hob t (List.mem_cons_of_mem task hx)
    rw [runAnalysisPublic, ht]
    cases hfetch : task.fetch with
    | fetched doc ex =>
      obtain ⟨st1, heq, hsc, herr⟩ := publicProcessReport_fetched st task.row doc ex
      rw [heq]
      obtain ⟨ih1, ih2, ih3⟩ := ih st1 hrest
      refine ⟨?_, ?_, ih3⟩
      · rw [ih1, hsc, List.filter_cons, if_pos (by simp [isSuccessfulFetch, hfetch])]
        simp only [List.length_cons]
        omega
      · rw [ih2, herr, List.filterMap_cons]
        have : errorEntry task = none := by simp [errorEntry, hfetch]
        rw [this]
    | raises e =>
      cases e with
      | explorationError code =>
        rw [publicProcessReport_exploration]
        obtain ⟨ih1, ih2, ih3⟩ := ih _ hrest
        refine ⟨?_, ?_, ih3⟩
        · rw [ih1, List.filter_cons, if_neg (by simp [isSuccessfulFetch, hfetch])]
        · rw [ih2, List.filterMap_cons]
          have : errorEntry task = some (task.row.headD "", code) := by
            simp [errorEntry, hfetch]
          rw [this]
          simp
      | generic m =>
        rw [publicProcessReport_generic]
        obtain ⟨ih1, ih2, ih3⟩ := ih st hrest
        refine ⟨?_, ?_, ih3⟩
        · rw [ih1, List.filter_cons, if_neg (by simp [isSuccessfulFetch, hfetch])]
        · rw [ih2, List.filterMap_cons]
          have : errorEntry task = none := by simp [errorEntry, hfetch]
          rw [this]

/-! ## C4: per-report error isolation and the error list -/

/-- C4 (corrected): an exception while fetching or classifying one report is
confined to that report and the scan continues - in the public analyzer the
other reports are all reflected in the success count and the scan does not
time out - but the error list is only written for an ExplorationRequestError
in the public analyzer, keyed by `row[0]`; generic exceptions leave it
unchanged, and the shared analyzer never writes it at all. -/
theorem processReport_error_isolation :
    (∀ (st : ScanState PublicRow) (tasks : List PublicTask),
      (∀ task ∈ tasks, task.overBudget = false) →
      (runAnalysisPublic st tasks).1.successCount
          = st.successCount + (tasks.filter isSuccessfulFetch).length
      ∧ (runAnalysisPublic st tasks).1.errors = st.errors ++ tasks.filterMap errorEntry
      ∧ (runAnalysisPublic st tasks).2 = false)
    ∧ ∀ (st : ScanState SharedRow) (tasks : List SharedTask),
        (runAnalysisShared st tasks).1.errors = st.errors :=
  ⟨runAnalysisPublic_spec, runAnalysisShared_errors⟩

/-- Witness for C4: three public reports, the second failing with an
ExplorationRequestError - the other two are counted, the error list holds
exactly the one entry for report `r2`; and a shared scan with a failing
report leaves the error list empty. -/
theorem processReport_error_isolation_witness :
    (runAnalysisPublic (initialScanState PublicRow)
        [⟨["r1", "u"], false, .fetched ⟨.null, []⟩ .null⟩,
         ⟨["r2", "u"], false, .raises (.explorationError "QueryUserError")⟩,
         ⟨["r3", "u"], false, .fetched ⟨.null, []⟩ .null⟩]).1.successCount
      = (initialScanState PublicRow).successCount
        + (([⟨["r1", "u"], false, .fetched ⟨.null, []⟩ .null⟩,
             ⟨["r2", "u"], false, .raises (.explorationError "QueryUserError")⟩,
             ⟨["r3", "u"], false, .fetched ⟨.null, []⟩ .null⟩] :
            List PublicTask).filter isSuccessfulFetch).length
    ∧ (runAnalysisPublic (initialScanState PublicRow)
        [⟨["r1", "u"], false, .fetched ⟨.null, []⟩ .null⟩,
         ⟨["r2", "u"], false, .raises (.explorationError "QueryUserError")⟩,
         ⟨["r3", "u"], false, .fetched ⟨.null, []⟩ .null⟩]).1.errors
      = (initialScanState PublicRow).errors
        ++ ([⟨["r1", "u"], false, .fetched ⟨.null, []⟩ .null⟩,
             ⟨["r2", "u"], false, .raises (.explorationError "QueryUserError")⟩,
             ⟨["r3", "u"], false, .fetched ⟨.null, []⟩ .null⟩] :
            List PublicTask).filterMap errorEntry
    ∧ (runAnalysisShared (initialScanState SharedRow)
        [⟨⟨"r9", "sh", "n9"⟩, false, .raises (.generic "ConnectionError")⟩]).1.errors
      = (initialScanState SharedRow).errors := by
  have h := processReport_error_isolation
  have h1 := h.1 (initialScanState PublicRow)
    [⟨["r1", "u"], false, .fetched ⟨.null, []⟩ .null⟩,
     ⟨["r2", "u"], false, .raises (.explorationError "QueryUserError")⟩,
     ⟨["r3", "u"], false, .fetched ⟨.null, []⟩ .null⟩]
    (by intro t ht; fin_cases ht <;> rfl)
  exact ⟨h1.1, h1.2.1,
    h.2 (initialScanState SharedRow) [⟨⟨"r9", "sh", "n9"⟩, false, .raises (.generic "ConnectionError")⟩]⟩

/-- Counterexample to C4 as stated: in a shared scan of two reports where the
second raises a generic exception during fetch, the other report is indeed
reflected in the success count, but the error list stays empty - it does not
contain an entry for the failing report as the claim demands. -/
theorem runAnalysisShared_error_list_stays_empty :
    runAnalysisShared (initialScanState SharedRow)
        [⟨⟨"r1", "sh", "n1"⟩, false, .fetched ⟨.null, []⟩ .null⟩,
         ⟨⟨"r2", "sh", "n2"⟩, false, .raises (.generic "ConnectionError")⟩]
      = ({ initialScanState SharedRow with successCount := 1 }, false)
    ∧ ({ initialScanState SharedRow with successCount := 1 } : ScanState SharedRow).errors = []
    ∧ ([] : List (String × String)).length ≠ 1 :=
  ⟨rfl, rfl, by decide⟩

/-! ## C5: the timeout signal and the coordinator -/

/-- C5 (code-bug evidence): in the shared analyzer the TimeoutError raised by
the budget check is caught by the same method's blanket `except Exception`,
so `_process_report` returns normally, the coordinator's `except
TimeoutError` branch never fires, every remaining task is still processed and
`timed_out` stays False; the public analyzer re-raises the same signal, so
there the coordinator does stop with `timed_out = True` and the pending task
is cancelled. -/
theorem sharedProcessReport_timeout_swallowed :
    sharedProcessReport (initialScanState SharedRow) ⟨"r1", "sh", "n1"⟩ true
        (.fetched ⟨.null, []⟩ .null) = initialScanState SharedRow
    ∧ runAnalysisShared (initialScanState SharedRow)
        [⟨⟨"r1", "sh", "n1"⟩, true, .raises (.generic "late")⟩,
         ⟨⟨"r2", "sh", "n2"⟩, true, .pushAccessDenied⟩,
         ⟨⟨"r3", "sh", "n3"⟩, true, .fetched ⟨.null, []⟩ .null⟩]
      = (initialScanState SharedRow, false)
    ∧ runAnalysisPublic (initialScanState PublicRow)
        [⟨["r1", "url"], true, .raises (.generic "late")⟩,
         ⟨["r2", "url"], false, .fetched ⟨.null, []⟩ .null⟩]
      = (initialScanState PublicRow, true) :=
  ⟨rfl, rfl, rfl⟩

/-! ## Helper lemmas: the usage classifier -/

/-- The candidate-unused test only looks at the (table, column) strings. -/
theorem isCandidateUnused_pair_congr (normalized : String) (u c : ColumnEntry)
    (ht : u.table = c.table) (hc : u.column = c.column) :
    isCandidateUnused normalized u = isCandidateUnused normalized c := by
  rw [isCandidateUnused, isCandidateUnused, ht, hc]

/-- For a column of the input list, the pair search of the marking loop over
`unused_columns_and_tables` succeeds exactly when the column itself is
candidate-unused. -/
theorem markColumn_any_eq (reportColumns : List ColumnEntry) (normalized : String)
    (c : ColumnEntry) (hc : c ∈ reportColumns) :
    ((reportColumns.filter (isCandidateUnused normalized)).any
        (fun u => u.table = c.table && u.column = c.column)) = isCandidateUnused normalized c := by
  cases hb : isCandidateUnused normalized c with
  | true => exact List.any_eq_true.mpr ⟨c, List.mem_filter.mpr ⟨hc, hb⟩, by simp⟩
  | false =>
    apply List.any_eq_false.mpr
    intro u hu hand
    obtain ⟨hmem, hcand⟩ := List.mem_filter.mp hu
    simp only [Bool.and_eq_true, decide_eq_true_eq] at hand
    rw [isCandidateUnused_pair_congr normalized u c hand.1 hand.2, hb] at hcand
    cases hcand

/-- Membership through `insertSorted`. -/
theorem mem_insertSorted (a x : String) (l : List String) :
    a ∈ insertSorted x l ↔ a = x ∨ a ∈ l := by
  induction l with
  | nil => simp [insertSorted]
  | cons y ys ih =>
    rw [insertSorted]
    split
    · simp [List.mem_cons]
    · simp only [List.mem_cons, ih]
      tauto

/-- Sorting never adds or removes strings. -/
theorem mem_sortStrings (a : String) (l : List String) : a ∈ sortStrings l ↔ a ∈ l := by
  induction l with
  | nil => simp [sortStrings]
  | cons x xs ih =>
    rw [sortStrings, List.foldr_cons, ← sortStrings, mem_insertSorted]
    simp [ih]

/-- Lookup after one dict-grouping step. -/
theorem lookupTable_insertTableColumn (tbls : List (String × List String)) (t c t2 : String) :
    lookupTable (insertTableColumn tbls t c) t2
      = if t2 = t then some ((lookupTable tbls t).getD [] ++ [c]) else lookupTable tbls t2 := by
  induction tbls with
  | nil =>
    rw [insertTableColumn]
    by_cases h : t2 = t
    · simp [h, lookupTable]
    · simp [h, Ne.symm h, lookupTable]
  | cons p ps ih =>
    rw [insertTableColumn]
    by_cases hp : p.1 = t
    · rw [if_pos hp, lookupTable]
      by_cases h2 : p.1 = t2
      · rw [if_pos h2, if_pos (h2.symm.trans hp), lookupTable, if_pos hp]
        rfl
      · have ht2 : ¬ t2 = t := fun he => h2 (hp.trans he.symm)
        rw [if_neg h2, if_neg ht2, lookupTable, if_neg h2]
    · rw [if_neg hp, lookupTable]
      by_cases h2 : p.1 = t2
      · have ht2 : ¬ t2 = t := fun he => hp (h2.trans he)
        rw [if_pos h2, if_neg ht2, lookupTable, if_pos h2]
      · rw [if_neg h2, ih]
        by_cases ht2 : t2 = t
        · rw [if_pos ht2, if_pos ht2, lookupTable, if_neg hp]
        · rw [if_neg ht2, if_neg ht2, lookupTable, if_neg h2]

/-- What the grouping fold of utils.py lines 90-93 associates to a table: the
accumulated entry extended by, or created as, that table's columns in
original encounter order. -/
theorem lookupTable_foldl_insert (cols : List ColumnEntry) :
    ∀ (tbls : List (String × List String)) (t : String),
      lookupTable (cols.foldl (fun acc c => insertTableColumn acc c.table c.column) tbls) t
        = match lookupTable tbls t with
          | some cs => some (cs ++ columnsOfTable cols t)
          | none =>
            if cols.any (fun c => c.table = t) then some (columnsOfTable cols t) else none := by
  induction cols with
  | nil =>
    intro tbls t
    rw [List.foldl_nil]
    cases h : lookupTable tbls t <;> simp [columnsOfTable, h]
  | cons c0 cols ih =>
    intro tbls t
    rw [List.foldl_cons, ih, lookupTable_insertTableColumn]
    by_cases ht : t = c0.table
    · subst ht
      cases hl : lookupTable tbls c0.table <;>
        simp [hl, columnsOfTable, List.filter_cons, List.append_assoc]
    · have hne2 : ¬ (c0.table = t) := fun he => ht he.symm
      have hcols : columnsOfTable (c0 :: cols) t = columnsOfTable cols t := by
        simp [columnsOfTable, List.filter_cons, hne2]
      have hany : ((c0 :: cols).any (fun c => c.table = t))
          = (cols.any (fun c => c.table = t)) := by
        simp [List.any_cons, hne2]
      rw [if_neg ht, hcols, hany]

/-- A successful lookup exhibits a member of the association list. -/
theorem lookupTable_mem (l : List (String × List String)) (t : String) (cs : List String)
    (h : lookupTable l t = some cs) : (t, cs) ∈ l := by
  induction l with
  | nil => cases h
  | cons p ps ih =>
    rw [lookupTable] at h
    by_cases hp : p.1 = t
    · rw [if_pos hp] at h
      subst hp
      injection h with h2
      subst h2
      exact List.mem_cons_self p ps
    · rw [if_neg hp] at h
      exact List.mem_cons_of_mem p (ih h)

/-- Every table occurring in the input appears in the grouping dict paired
with its columns in original encounter order. -/
theorem tablesOfColumns_mem (reportColumns : List ColumnEntry) (t : String)
    (h : (reportColumns.any (fun c => c.table = t)) = true) :
    (t, columnsOfTable reportColumns t) ∈ tablesOfColumns reportColumns := by
  apply lookupTable_mem
  have hl := lookupTable_foldl_insert reportColumns [] t
  rw [tablesOfColumns]
  rw [hl]
  simp only [lookupTable]
  rw [if_pos h]

/-- The summary entry for a table whose candidate-unused columns are a
non-empty proper subset of its columns: the explicit listing, sorted
ascending. -/
theorem tableEntry_proper_subset (unusedCT : List ColumnEntry) (t : String)
    (columns : List String)
    (hne : tableUnusedColumns unusedCT t ≠ [])
    (hproper : ∃ col ∈ columns, col ∉ tableUnusedColumns unusedCT t) :
    tableEntry unusedCT t columns
      = some (t ++ ": [" ++ String.intercalate ", "
          (sortStrings (tableUnusedColumns unusedCT t)) ++ "]") := by
  rw [tableEntry]
  have h1 : ¬ ((tableUnusedColumns unusedCT t).isEmpty = true) := by
    simpa [List.isEmpty_iff] using hne
  rw [if_neg h1]
  obtain ⟨col, hcol, hnotin⟩ := hproper
  have hne2 : ¬ sortStrings (tableUnusedColumns unusedCT t) = sortStrings columns := by
    intro he
    apply hnotin
    have hmem : col ∈ sortStrings columns := (mem_sortStrings col columns).mpr hcol
    rw [← he] at hmem
    exact (mem_sortStrings _ _).mp hmem
  rw [if_neg hne2]
  have hany : ((sortStrings columns).any
      (fun c => !((sortStrings (tableUnusedColumns unusedCT t)).contains c))) = true := by
    apply List.any_eq_true.mpr
    refine ⟨col, (mem_sortStrings col columns).mpr hcol, ?_⟩
    simp [mem_sortStrings, hnotin]
  rw [if_pos hany]

/-! ## C1: the proper-subset summary entry -/

/-- C1 (corrected): when a table's candidate-unused columns are a proper,
non-empty subset of its columns, the summary list built by
`get_classified_columns` (whose first return component is their comma-space
join) contains the entry for that table listing exactly the candidate-unused
columns - but in ascending sorted order, the result of `list.sort()`, not in
the table's original column order. -/
theorem getClassifiedColumns_proper_subset_summary
    (reportColumns : List ColumnEntry) (jsonString : Json) (t : String)
    (hocc : (reportColumns.any (fun c => c.table = t)) = true)
    (hne : tableUnusedColumns (unusedColumnsAndTables reportColumns jsonString) t ≠ [])
    (hproper : ∃ col ∈ columnsOfTable reportColumns t,
        col ∉ tableUnusedColumns (unusedColumnsAndTables reportColumns jsonString) t) :
    (getClassifiedColumns reportColumns jsonString).1
        = String.intercalate ", " (unusedSummaries reportColumns jsonString)
    ∧ (t ++ ": [" ++ String.intercalate ", "
          (sortStrings (tableUnusedColumns (unusedColumnsAndTables reportColumns jsonString) t))
          ++ "]")
        ∈ unusedSummaries reportColumns jsonString := by
  refine ⟨rfl, ?_⟩
  rw [unusedSummaries]
  exact List.mem_filterMap.mpr
    ⟨(t, columnsOfTable reportColumns t), tablesOfColumns_mem reportColumns t hocc,
     tableEntry_proper_subset _ t _ hne hproper⟩

/-- Witness for C1: table `T` with columns in encounter order `b, a, c`;
the evidence mentions only `T.c`, so the candidate-unused columns are
`[b, a]` and the emitted entry is `T: [a, b]`. -/
theorem getClassifiedColumns_proper_subset_summary_witness :
    ("T" ++ ": [" ++ String.intercalate ", "
        (sortStrings (tableUnusedColumns (unusedColumnsAndTables
            [⟨"T", "b", none, none⟩, ⟨"T", "a", none, none⟩, ⟨"T", "c", none, none⟩]
            (Json.str "T.c")) "T")) ++ "]")
      ∈ unusedSummaries
          [⟨"T", "b", none, none⟩, ⟨"T", "a", none, none⟩, ⟨"T", "c", none, none⟩]
          (Json.str "T.c")
    ∧ sortStrings (tableUnusedColumns (unusedColumnsAndTables
          [⟨"T", "b", none, none⟩, ⟨"T", "a", none, none⟩, ⟨"T", "c", none, none⟩]
          (Json.str "T.c")) "T") = ["a", "b"] :=
  ⟨(getClassifiedColumns_proper_subset_summary
      [⟨"T", "b", none, none⟩, ⟨"T", "a", none, none⟩, ⟨"T", "c", none, none⟩]
      (Json.str "T.c") "T" (by decide) (by decide) ⟨"c", by decide, by decide⟩).2,
   by decide⟩

/-- Counterexample to C1 as stated: the candidate-unused columns of `T` in
original column order are `b, a`, yet the emitted summary is `T: [a, b]`
(sorted), not the `T: [b, a]` the claim requires. -/
theorem getClassifiedColumns_summary_not_original_order :
    (getClassifiedColumns
        [⟨"T", "b", none, none⟩, ⟨"T", "a", none, none⟩, ⟨"T", "c", none, none⟩]
        (Json.str "T.c")).1 = "T: [a, b]"
    ∧ tableUnusedColumns (unusedColumnsAndTables
          [⟨"T", "b", none, none⟩, ⟨"T", "a", none, none⟩, ⟨"T", "c", none, none⟩]
          (Json.str "T.c")) "T" = ["b", "a"]
    ∧ ("T: [a, b]" : String) ≠ "T: [b, a]" :=
  ⟨rfl, rfl, by decide⟩

/-! ## C7: what the marking loop mutates -/

/-- C7 (corrected): the marking loop of `get_classified_columns` leaves
`table` and `column` untouched and sets `unused = True` exactly on the
candidate-unused columns, leaving the flag of the others as it was - but the
`unused` flag is not the only mutated state: the loop also adds `used =
False` to *every* input column (utils.py line 109). -/
theorem getClassifiedColumns_mutation_spec (reportColumns : List ColumnEntry)
    (jsonString : Json) :
    (getClassifiedColumns reportColumns jsonString).2
      = reportColumns.map (fun c =>
          { c with used := some false,
                   unused := if isCandidateUnused (normalizedEvidence jsonString) c
                             then some true else c.unused }) := by
  rw [getClassifiedColumns]
  apply List.map_congr_left
  intro c hc
  rw [markColumn, unusedColumnsAndTables,
    markColumn_any_eq reportColumns (normalizedEvidence jsonString) c hc]
  cases hb : isCandidateUnused (normalizedEvidence jsonString) c <;> simp [hb]

/-- Counterexample to C7 as stated: a single column that the evidence *uses*
comes back without the `unused` flag, as the claim says, but with a new
`used = False` field added - state other than the unused flag was mutated. -/
theorem getClassifiedColumns_adds_used_field :
    (getClassifiedColumns [⟨"T", "a", none, none⟩] (Json.str "T.a")).2
        = [⟨"T", "a", some false, none⟩]
    ∧ (⟨"T", "a", some false, none⟩ : ColumnEntry) ≠ ⟨"T", "a", none, none⟩
    ∧ (⟨"T", "a", some false, none⟩ : ColumnEntry).unused
        = (⟨"T", "a", none, none⟩ : ColumnEntry).unused :=
  ⟨rfl, by decide, rfl⟩
